import Mathlib

/-!
Verification of the assembler and rollout reconciler of this repository.

The Go sources are shallowly embedded:
* Go `map[string]string` values become association lists (`LabelMap`) whose
  lookup is first-match; maps are only ever built in ways that keep keys
  unique, so first-match lookup agrees with Go map indexing.
* `unstructured.Unstructured` objects become a structure holding the
  metadata fields the code reads and writes, plus a flattened field-path map
  for `fieldpath.Pave(...).SetValue`.
* Fallible Go functions return `Except String` values.
-/

namespace RudrX

instance {ε α : Type} [DecidableEq ε] [DecidableEq α] : DecidableEq (Except ε α) := fun x y =>
  match x, y with
  | .error a, .error b =>
      if h : a = b then .isTrue (by rw [h])
      else .isFalse (by intro hc; injection hc; contradiction)
  | .ok a, .ok b =>
      if h : a = b then .isTrue (by rw [h])
      else .isFalse (by intro hc; injection hc; contradiction)
  | .error _, .ok _ => .isFalse (by intro hc; cases hc)
  | .ok _, .error _ => .isFalse (by intro hc; cases hc)

/-- First-match lookup in an association list keyed by strings; models
indexing a Go map (the lists we build have unique keys). -/
def lookupM {α : Type} : List (String × α) → String → Option α
  | [], _ => none
  | (k1, v) :: rest, k => if k1 = k then some v else lookupM rest k

/-- Go `map[string]string`, as an association list with unique keys. -/
abbrev LabelMap := List (String × String)

/-- A `{apiVersion, kind, name}` reference (runtimev1alpha1.TypedReference). -/
structure TypedReference where
  apiVersion : String
  kind : String
  name : String
deriving DecidableEq, Repr

/-- Values stored at a field path of an unstructured object. -/
inductive FieldValue where
  | str : String → FieldValue
  | ref : TypedReference → FieldValue
deriving DecidableEq, Repr

/-- metav1.OwnerReference. -/
structure OwnerReference where
  apiVersion : String
  kind : String
  name : String
  uid : String
  controller : Option Bool
  blockOwnerDeletion : Option Bool
deriving DecidableEq, Repr

/-- unstructured.Unstructured, restricted to the pieces the assembler and the
rollout controller read or write.  Nested spec fields reached through
`fieldpath` are modelled as a flattened path-keyed map `fields`, kept
separate from the metadata fields. -/
structure Unstructured where
  apiVersion : String
  kind : String
  name : String
  nameSpace : String
  labels : LabelMap
  annotations : LabelMap
  ownerReferences : List OwnerReference
  fields : List (String × FieldValue)
deriving DecidableEq, Repr

/-- Overwrite-or-append insertion into a path-keyed field map; models
`fieldpath.Pave(obj).SetValue(path, v)`. -/
def insertField : List (String × FieldValue) → String → FieldValue → List (String × FieldValue)
  | [], k, v => [(k, v)]
  | (k1, w) :: rest, k, v =>
      if k1 = k then (k, v) :: rest else (k1, w) :: insertField rest k v

namespace oam

/-- Label key "app.oam.dev/name" (value documented in assemble.go's NOTE). -/
def LabelAppName : String := "app.oam.dev/name"

/-- Label key "app.oam.dev/appRevision". -/
def LabelAppRevision : String := "app.oam.dev/appRevision"

/-- Label key "app.oam.dev/app-revision-hash". -/
def LabelAppRevisionHash : String := "app.oam.dev/app-revision-hash"

/-- Label key "app.oam.dev/component". -/
def LabelAppComponent : String := "app.oam.dev/component"

/-- Label key "app.oam.dev/revision" (component revision). -/
def LabelAppComponentRevision : String := "app.oam.dev/revision"

/-- Label key "app.oam.dev/resourceType". -/
def LabelOAMResourceType : String := "app.oam.dev/resourceType"

/-- Label key "workload.oam.dev/type". -/
def WorkloadTypeLabel : String := "workload.oam.dev/type"

/-- Label key "trait.oam.dev/type". -/
def TraitTypeLabel : String := "trait.oam.dev/type"

/-- Label value "WORKLOAD" (assemble.go NOTE comment). -/
def ResourceTypeWorkload : String := "WORKLOAD"

/-- Label value "TRAIT" (assemble.go NOTE comment). -/
def ResourceTypeTrait : String := "TRAIT"

/-- Rollout marker annotation key (exact string immaterial to the claims). -/
def AnnotationAppRollout : String := "app.oam.dev/rollout-template"

/-- Rolling-component marker annotation key. -/
def AnnotationRollingComponent : String := "app.oam.dev/rolling-components"

/-- In-place-upgrade marker annotation key. -/
def AnnotationInplaceUpgrade : String := "app.oam.dev/inplace-upgrade"

end oam

namespace util

/-- util.MergeMapOverrideWithDst (pkg/oam/util, body outside the provided
src/ sample): copies every entry of `src` and then every entry of `dst`
into a fresh map, so on a key conflict the `dst` entry is the one kept, as
the function name states.  Modelled as the `src` entries whose key does not
occur in `dst`, followed by `dst`. -/
def MergeMapOverrideWithDst (src dst : LabelMap) : LabelMap :=
  (src.filter (fun p => (lookupM dst p.1).isNone)) ++ dst

/-- util.AddLabels: merge new labels over the object's labels, the new
labels winning on conflict. -/
def AddLabels (obj : Unstructured) (ls : LabelMap) : Unstructured :=
  { obj with labels := MergeMapOverrideWithDst obj.labels ls }

/-- util.AddAnnotations: merge new annotations over the object's
annotations, the new annotations winning on conflict. -/
def AddAnnotations (obj : Unstructured) (anns : LabelMap) : Unstructured :=
  { obj with annotations := MergeMapOverrideWithDst obj.annotations anns }

/-- util.RemoveAnnotations: delete each listed key from the object's
annotations. -/
def RemoveAnnotations (obj : Unstructured) (keys : List String) : Unstructured :=
  { obj with annotations := obj.annotations.filter (fun p => decide (p.1 ∉ keys)) }

/-- util.RawExtension2Unstructured: decoding a raw payload; `none` models a
payload that fails to decode. -/
def RawExtension2Unstructured : Option Unstructured → Except String Unstructured
  | some u => .ok u
  | none => .error "cannot unmarshal raw extension"

/-- Modelled from the spec: util.GenTraitName (pkg/oam/util, outside src/)
produces a deterministic generated trait name from the component name and
the trait type; the hash suffix is elided since no claim depends on the
generated value. -/
def GenTraitName (compName traitType : String) : String :=
  compName ++ "-" ++ (if traitType = "" then "trait" else traitType)

end util

/-- Go strings.Split on a single separator character, over the char list
(always returns at least one part, like Go). -/
def splitOnChar (sep : Char) : List Char → List (List Char)
  | [] => [[]]
  | c :: rest =>
      match splitOnChar sep rest with
      | [] => if c = sep then [[], []] else [[c]]
      | s :: ss => if c = sep then [] :: s :: ss else (c :: s) :: ss

namespace ctrlutil

/-- ctrlutil.ExtractComponentName (pkg/controller/utils, outside src/):
splits the revision name on "-" and drops the last segment, recovering the
component name from a component revision name such as "mycomp-v2". -/
def ExtractComponentName (revisionName : String) : String :=
  String.intercalate "-"
    (((splitOnChar '-' revisionName.toList).map (fun cs => String.mk cs)).dropLast)

end ctrlutil

/-- v1alpha2.Component, restricted to the fields the assembler reads: the
component name and the raw workload payload (`none` models an undecodable
payload). -/
structure Component where
  name : String
  workload : Option Unstructured
deriving DecidableEq, Repr

/-- v1beta1.ComponentDefinition; its contents are only handed to workload
options, which this model treats as opaque callbacks. -/
structure ComponentDefinition where
  name : String := ""
deriving DecidableEq, Repr, Inhabited

/-- v1beta1.TraitDefinition, restricted to spec.workloadRefPath; the Go zero
value (empty path) is the default, matching a missing map entry. -/
structure TraitDefinition where
  workloadRefPath : String := ""
deriving DecidableEq, Repr, Inhabited

/-- v1alpha2.ComponentTrait: the raw trait payload. -/
structure ComponentTrait where
  trait : Option Unstructured
deriving DecidableEq, Repr

/-- One entry of ApplicationConfiguration.Spec.Components. -/
structure AppConfigComponent where
  revisionName : String
  traits : List ComponentTrait
  scopes : List TypedReference
deriving DecidableEq, Repr

/-- v1alpha2.ApplicationConfiguration, restricted to what complete() reads. -/
structure AppConfig where
  name : String
  nameSpace : String
  labels : LabelMap
  annotations : LabelMap
  ownerReferences : List OwnerReference
  components : List AppConfigComponent
deriving DecidableEq, Repr

/-- v1beta1.ApplicationRevision as the assembler consumes it.  complete()
decodes the raw application configuration and raw components ignoring
decode errors ("safe to skip error-check"), so both are modelled in their
decoded form. -/
structure ApplicationRevisionA where
  name : String
  labels : LabelMap
  appConfig : AppConfig
  comps : List Component
  traitDefinitions : List (String × TraitDefinition)
  componentDefinitions : List (String × ComponentDefinition)

/-- A WorkloadOption's ApplyToWorkload: mutation is modelled by returning
the updated workload. -/
abbrev WorkloadOption :=
  Unstructured → Component → ComponentDefinition → Except String Unstructured

/-- assemble.Options after complete() has run (the derived fields). -/
structure AssembleCtx where
  appRevisionName : String
  appRevisionLabels : LabelMap
  appName : String
  appNamespace : String
  appLables : LabelMap
  appAnnotations : LabelMap
  appOwnerRef : Option OwnerReference
  comps : List Component
  components : List AppConfigComponent
  traitDefinitions : List (String × TraitDefinition)
  componentDefinitions : List (String × ComponentDefinition)
  workloadOptions : List WorkloadOption

/-- metav1.GetControllerOf: the first owner reference whose Controller flag
is set and true. -/
def getControllerOf (refs : List OwnerReference) : Option OwnerReference :=
  refs.find? (fun o => o.controller == some true)

/-- Options.complete(): derive the assembler context from the revision. -/
def complete (rev : ApplicationRevisionA) (opts : List WorkloadOption) : AssembleCtx :=
  { appRevisionName := rev.name
    appRevisionLabels := rev.labels
    appName := rev.appConfig.name
    appNamespace := rev.appConfig.nameSpace
    appLables := rev.appConfig.labels
    appAnnotations := rev.appConfig.annotations
    appOwnerRef := getControllerOf rev.appConfig.ownerReferences
    comps := rev.comps
    components := rev.appConfig.components
    traitDefinitions := rev.traitDefinitions
    componentDefinitions := rev.componentDefinitions
    workloadOptions := opts }

/-- Options.validate(): the revision must have a controller owner and a
non-empty revision-hash label (a missing Go map entry reads as ""). -/
def validate (o : AssembleCtx) : Except String Unit :=
  match o.appOwnerRef with
  | none => .error "AppRevision must have an Application as owner"
  | some _ =>
      if (lookupM o.appRevisionLabels oam.LabelAppRevisionHash).getD "" = "" then
        .error "AppRevision must have revision hash recorded in the lable"
      else
        .ok ()

/-- Options.setWorkloadName: use the component name as the workload name,
overriding any render-phase name. -/
def setWorkloadName (wl : Unstructured) (compName : String) : Unstructured :=
  { wl with name := compName }

/-- Options.setTraitName: only set a generated name when the renderer left
the name blank. -/
def setTraitName (trait : Unstructured) (compName traitType : String) : Unstructured :=
  if trait.name = "" then
    { trait with name := util.GenTraitName compName traitType }
  else
    trait

/-- Options.generateCommonLables: the canonical identity labels merged with
the application's labels via util.MergeMapOverrideWithDst, the application
labels being the dst argument. -/
def generateCommonLables (o : AssembleCtx) (compName compRevisionName : String) : LabelMap :=
  util.MergeMapOverrideWithDst
    [ (oam.LabelAppName, o.appName),
      (oam.LabelAppRevision, o.appRevisionName),
      (oam.LabelAppRevisionHash, (lookupM o.appRevisionLabels oam.LabelAppRevisionHash).getD ""),
      (oam.LabelAppComponent, compName),
      (oam.LabelAppComponentRevision, compRevisionName) ]
    o.appLables

/-- Options.setWorkloadLables: add the resource-type label, then the common
labels. -/
def setWorkloadLables (wl : Unstructured) (commonLables : LabelMap) : Unstructured :=
  util.AddLabels (util.AddLabels wl [(oam.LabelOAMResourceType, oam.ResourceTypeWorkload)])
    commonLables

/-- Options.setTraitLables: add the resource-type label, then the common
labels. -/
def setTraitLables (trait : Unstructured) (commonLables : LabelMap) : Unstructured :=
  util.AddLabels (util.AddLabels trait [(oam.LabelOAMResourceType, oam.ResourceTypeTrait)])
    commonLables

/-- Options.setAnnotations: pass all application annotations, then strip
the rollout-internal annotations. -/
def setAnnotations (o : AssembleCtx) (obj : Unstructured) : Unstructured :=
  util.RemoveAnnotations (util.AddAnnotations obj o.appAnnotations)
    [oam.AnnotationAppRollout, oam.AnnotationRollingComponent, oam.AnnotationInplaceUpgrade]

/-- Options.setNamespace: only set the application namespace when the
rendered object did not specify one. -/
def setNamespace (o : AssembleCtx) (obj : Unstructured) : Unstructured :=
  if obj.nameSpace = "" then { obj with nameSpace := o.appNamespace } else obj

/-- Options.setOwnerReference: the application becomes the sole owner.
validate() guarantees the owner reference is present before assembly runs;
the impossible none case keeps the owner list empty. -/
def setOwnerReference (o : AssembleCtx) (obj : Unstructured) : Unstructured :=
  { obj with ownerReferences := match o.appOwnerRef with | some r => [r] | none => [] }

/-- The workload-reference field path setWorkloadRefToTrait reads: the
trait definition selected by the trait-type label (a missing map entry is
the zero-value definition with an empty path). -/
def workloadRefPathFor (o : AssembleCtx) (trait : Unstructured) : String :=
  let traitType := (lookupM trait.labels oam.TraitTypeLabel).getD ""
  ((lookupM o.traitDefinitions traitType).getD default).workloadRefPath

/-- Options.setWorkloadRefToTrait: only if the trait's definition declares a
workload-reference field path, write the sibling workload reference at that
path. -/
def setWorkloadRefToTrait (o : AssembleCtx) (wlRef : TypedReference) (trait : Unstructured) :
    Except String Unstructured :=
  if workloadRefPathFor o trait = "" then
    .ok trait
  else
    .ok { trait with
          fields := insertField trait.fields (workloadRefPathFor o trait) (.ref wlRef) }

/-- Fold the workload options over the workload in order, stopping at the
first failure (the loop over o.WorkloadOptions). -/
def applyWorkloadOptions : List WorkloadOption → Unstructured → Component →
    ComponentDefinition → Except String Unstructured
  | [], wl, _, _ => .ok wl
  | opt :: rest, wl, c, cd =>
      match opt wl c cd with
      | .error e => .error ("cannot apply workload option for component: " ++ e)
      | .ok wl1 => applyWorkloadOptions rest wl1 c cd

/-- Per-workload part of Options.assemble's component loop body. -/
def assembleWorkload (o : AssembleCtx) (commonLables : LabelMap) (compName : String)
    (comp : Component) : Except String Unstructured :=
  match util.RawExtension2Unstructured comp.workload with
  | .error e => .error ("cannot convert raw workload in component " ++ compName ++ ": " ++ e)
  | .ok w0 =>
      let w1 := setWorkloadName w0 compName
      let w2 := setWorkloadLables w1 commonLables
      let w3 := setAnnotations o w2
      let w4 := setNamespace o w3
      let w5 := setOwnerReference o w4
      let workloadType := (lookupM w5.labels oam.WorkloadTypeLabel).getD ""
      let compDefinition := (lookupM o.componentDefinitions workloadType).getD default
      applyWorkloadOptions o.workloadOptions w5 comp compDefinition

/-- Per-trait part of Options.assemble's component loop body. -/
def assembleTrait (o : AssembleCtx) (commonLables : LabelMap) (compName : String)
    (workloadRef : TypedReference) (compTrait : ComponentTrait) : Except String Unstructured :=
  match util.RawExtension2Unstructured compTrait.trait with
  | .error e => .error ("cannot convert raw trait in component " ++ compName ++ ": " ++ e)
  | .ok t0 =>
      let traitType := (lookupM t0.labels oam.TraitTypeLabel).getD ""
      let t1 := setTraitName t0 compName traitType
      let t2 := setTraitLables t1 commonLables
      let t3 := setAnnotations o t2
      let t4 := setNamespace o t3
      let t5 := setOwnerReference o t4
      match setWorkloadRefToTrait o workloadRef t5 with
      | .error e => .error ("cannot set workload reference to trait: " ++ e)
      | .ok t6 => .ok t6

/-- The trait loop of Options.assemble, in declaration order. -/
def assembleTraits (o : AssembleCtx) (commonLables : LabelMap) (compName : String)
    (workloadRef : TypedReference) : List ComponentTrait → Except String (List Unstructured)
  | [] => .ok []
  | ct :: rest =>
      match assembleTrait o commonLables compName workloadRef ct with
      | .error e => .error e
      | .ok t =>
          match assembleTraits o commonLables compName workloadRef rest with
          | .error e => .error e
          | .ok ts => .ok (t :: ts)

/-- Output of one iteration of Options.assemble's component loop. -/
structure ComponentOutput where
  workload : Option Unstructured
  workloadRef : TypedReference
  traits : List Unstructured
  scopes : List TypedReference
deriving DecidableEq, Repr

/-- The workload half of Options.assemble's loop body: the first component
whose name matches is assembled (Go's range-and-break); a decode or option
failure aborts, and no match leaves the workload absent. -/
def assembleComponentWorkload (o : AssembleCtx) (commonLables : LabelMap) (compName : String) :
    Except String (Option Unstructured) :=
  match o.comps.find? (fun c => c.name == compName) with
  | none => .ok none
  | some comp =>
      match assembleWorkload o commonLables compName comp with
      | .error e => .error e
      | .ok wl => .ok (some wl)

/-- The TypedReference taken from the assembled workload; the Go zero value
when no component matched. -/
def workloadRefOf : Option Unstructured → TypedReference
  | some wl => { apiVersion := wl.apiVersion, kind := wl.kind, name := wl.name }
  | none => { apiVersion := "", kind := "", name := "" }

/-- One iteration of Options.assemble's loop over the application
configuration's components: assemble the workload of the first matching
component, then the traits (handing them the workload's reference), then
copy the scope references. -/
def assembleComponent (o : AssembleCtx) (acc : AppConfigComponent) :
    Except String ComponentOutput :=
  match assembleComponentWorkload o
      (generateCommonLables o (ctrlutil.ExtractComponentName acc.revisionName) acc.revisionName)
      (ctrlutil.ExtractComponentName acc.revisionName) with
  | .error e => .error e
  | .ok owl =>
      match assembleTraits o
          (generateCommonLables o (ctrlutil.ExtractComponentName acc.revisionName)
            acc.revisionName)
          (ctrlutil.ExtractComponentName acc.revisionName) (workloadRefOf owl) acc.traits with
      | .error e => .error e
      | .ok ts => .ok { workload := owl, workloadRef := workloadRefOf owl, traits := ts,
                        scopes := acc.scopes }

/-- The three maps Options.Assemble returns, keyed by component name. -/
structure AssembledManifests where
  workloads : List (String × Unstructured)
  traits : List (String × List Unstructured)
  scopes : List (String × List TypedReference)

/-- Options.assemble(): fold the component loop over the application
configuration; a workload entry is only recorded when a matching component
existed. -/
def assembleAll (o : AssembleCtx) : List AppConfigComponent → Except String AssembledManifests
  | [] => .ok { workloads := [], traits := [], scopes := [] }
  | acc :: rest =>
      match assembleComponent o acc with
      | .error e => .error e
      | .ok out =>
          match assembleAll o rest with
          | .error e => .error e
          | .ok m =>
              let compName := ctrlutil.ExtractComponentName acc.revisionName
              let workloads :=
                match out.workload with
                | some wl => (compName, wl) :: m.workloads
                | none => m.workloads
              .ok { workloads := workloads,
                    traits := (compName, out.traits) :: m.traits,
                    scopes := (compName, out.scopes) :: m.scopes }

/-- Options.Assemble(): complete, validate, then assemble; a validation or
assembly error is wrapped and no manifests are returned. -/
def Assemble (rev : ApplicationRevisionA) (opts : List WorkloadOption) :
    Except String AssembledManifests :=
  let o := complete rev opts
  match validate o with
  | .error e => .error ("cannot assemble manifests of application: " ++ e)
  | .ok _ =>
      match assembleAll o o.components with
      | .error e => .error ("cannot assemble manifests of application: " ++ e)
      | .ok m => .ok m

/-! Rollout reconciler model (applicationrollout package). -/

/-- v1alpha1.RollingState values referenced by this controller.  The spec's
Initial/LocatingTarget stage is the locating-target state (where
ResetStatus places a fresh rollout) and its Rolling stage is the
rolling-in-batches state driven by the nested plan executor. -/
inductive RollingState where
  | locatingTargetApp
  | rollingInBatches
  | rolloutSucceed
  | rolloutFailed
  | rolloutDeleting
  | rolloutAbandoning
deriving DecidableEq, Repr

/-- The two rollout events this controller feeds to StateTransition. -/
inductive RolloutEvent where
  | rollingModified
  | appLocated
deriving DecidableEq, Repr

/-- AppRollout.Spec, restricted to the revision names (the rollout plan is
opaque to this controller and handed to the nested executor). -/
structure AppRolloutSpec where
  targetAppRevisionName : String
  sourceAppRevisionName : String
deriving DecidableEq, Repr

/-- AppRollout.Status: the nested rollout status's RollingState (`none`
models the empty string before ResetStatus has run) and the last-applied
revision names. -/
structure AppRolloutStatus where
  rollingState : Option RollingState
  lastUpgradedTargetAppRevision : String
  lastSourceAppRevision : String
deriving DecidableEq, Repr

/-- v1beta1.AppRollout. -/
structure AppRollout where
  spec : AppRolloutSpec
  status : AppRolloutStatus
deriving DecidableEq, Repr

/-- Modelled from the spec: RolloutStatus.ResetStatus (apis/standard.oam.dev,
outside src/) resets the nested rollout status and places the rollout at
the start of the state machine, the locating-target state. -/
def resetStatus (st : AppRolloutStatus) : AppRolloutStatus :=
  { st with rollingState := some .locatingTargetApp }

/-- Modelled from the spec: RolloutStatus.StateTransition (outside src/),
restricted to the two events this controller emits.  Per the spec's
transition table a Modified event leaves a non-terminal state unchanged and
restarts a terminal state at the beginning (the spec's Initial, identified
with the locating-target state); an AppLocated event moves the locating
state to the rolling state. -/
def stateTransition (s : RollingState) : RolloutEvent → RollingState
  | .rollingModified =>
      if s = .rolloutSucceed ∨ s = .rolloutFailed then .locatingTargetApp else s
  | .appLocated =>
      if s = .locatingTargetApp then .rollingInBatches else s

/-- Apply StateTransition to a status (DoReconcile runs it only after
ResetStatus, so the impossible unset state defaults to locating). -/
def applyStateTransition (st : AppRolloutStatus) (e : RolloutEvent) : AppRolloutStatus :=
  { st with rollingState := some (stateTransition (st.rollingState.getD .locatingTargetApp) e) }

/-- Reconciler.handleRollingTerminated: a rollout in a terminal state whose
recorded last-applied target and source equal the requested ones needs no
reconciliation. -/
def handleRollingTerminated (st : AppRolloutStatus)
    (targetAppRevisionName sourceAppRevisionName : String) : Bool :=
  ((st.rollingState == some RollingState.rolloutSucceed) ||
    (st.rollingState == some RollingState.rolloutFailed)) &&
  (st.lastUpgradedTargetAppRevision == targetAppRevisionName) &&
  (st.lastSourceAppRevision == sourceAppRevisionName)

/-- isRolloutModified: not deleting, and a non-empty recorded last target or
last source differs from the corresponding spec field. -/
def isRolloutModified (ar : AppRollout) : Bool :=
  (ar.status.rollingState != some RollingState.rolloutDeleting) &&
    (((ar.status.lastUpgradedTargetAppRevision != "") &&
        (ar.status.lastUpgradedTargetAppRevision != ar.spec.targetAppRevisionName)) ||
     ((ar.status.lastSourceAppRevision != "") &&
        (ar.status.lastSourceAppRevision != ar.spec.sourceAppRevisionName)))

/-- The target/source revision names a reconciliation pass works with,
together with the status after the Modified handling. -/
structure PinnedNames where
  target : String
  source : String
  status : AppRolloutStatus
deriving DecidableEq, Repr

/-- The Modified-handling block of DoReconcile: on a modification, a
non-terminal rollout keeps working on the last-applied revisions while a
terminal one adopts the new spec values and records them as last-applied;
either way the Modified event is fed to StateTransition. -/
def pinnedNames (st : AppRolloutStatus) (spec : AppRolloutSpec) : PinnedNames :=
  if isRolloutModified { spec := spec, status := st } then
    if st.rollingState ≠ some RollingState.rolloutSucceed ∧
        st.rollingState ≠ some RollingState.rolloutFailed then
      { target := st.lastUpgradedTargetAppRevision,
        source := st.lastSourceAppRevision,
        status := applyStateTransition st .rollingModified }
    else
      { target := spec.targetAppRevisionName,
        source := spec.sourceAppRevisionName,
        status := applyStateTransition
          { st with lastUpgradedTargetAppRevision := spec.targetAppRevisionName,
                    lastSourceAppRevision := spec.sourceAppRevisionName } .rollingModified }
  else
    { target := spec.targetAppRevisionName,
      source := spec.sourceAppRevisionName,
      status := st }

/-- Errors of a control-plane read. -/
inductive GetErr where
  | notFound
  | other
deriving DecidableEq, Repr

/-- Outcome of k8s wait.ExponentialBackoff: the condition's own error, or
ErrWaitTimeout when the steps are exhausted. -/
inductive WaitErr where
  | timeout
  | err : GetErr → WaitErr
deriving DecidableEq, Repr

/-- v1beta1.ApplicationRevision as the rollout controller uses it: only the
name and namespace are read (tracker naming, assembly keying). -/
structure AppRevisionR where
  name : String
  nameSpace : String
deriving DecidableEq, Repr

/-- An assembled manifest, as far as the rollout controller inspects it. -/
structure Manifest where
  name : String
  nameSpace : String
deriving DecidableEq, Repr

/-- Cluster-visible effects a reconciliation pass performs, in order:
revision reads, rollout dispatches (optionally upgrading ownership from a
source tracker), the owner-disabling patch, and the final dispatch
(optionally GC-enabled against a source tracker). -/
inductive Action where
  | resolve (revName : String)
  | dispatchForRollout (revName : String) (upgradeFrom : Option String)
  | disableOwner (revName : String)
  | finalDispatch (revName : String) (gcTracker : Option String)
deriving DecidableEq, Repr

/-- Errors DoReconcile can return. -/
inductive RecErr where
  | resolve (e : GetErr)
  | assembleFailed (revName : String)
  | emptyManifests
  | dispatchFailed (revName : String)
  | wait (w : WaitErr)
deriving DecidableEq, Repr

/-- The collaborators of a reconciliation pass: control-plane revision
reads, the (other) assembler producing a revision's manifests, the
dispatcher outcome, the per-attempt workload reads of the verification
loop, and the nested rollout-plan executor (a black box returning the
updated rolling state). -/
structure ReconcileEnv where
  getAppRevision : String → Except GetErr AppRevisionR
  manifests : String → Except String (List Manifest)
  dispatchErr : String → Option String
  workloadReads : String → Nat → Option GetErr
  planExec : RollingState → RollingState

/-- Modelled from the spec: dispatch.ConstructResourceTrackerName (outside
src/) derives the tracker name deterministically from (revisionName,
namespace). -/
def ConstructResourceTrackerName (revName nameSpace : String) : String :=
  revName ++ "-" ++ nameSpace

/-- Modelled from the spec: utils.DefaultBackoff (pkg/controller/utils,
outside src/) is a bounded exponential backoff; only its step bound is
relevant to the claims. -/
def defaultBackoffSteps : Nat := 5

/-- k8s.io/apimachinery wait.ExponentialBackoff (external library, embedded
from its semantics): evaluate the condition once per step; a non-nil
condition error returns immediately, `true` succeeds, `false` with no error
sleeps and retries, and exhausting the steps returns ErrWaitTimeout.  The
result pairs the number of condition evaluations with the outcome (`none`
is success). -/
def exponentialBackoff (cond : Nat → Bool × Option GetErr) : Nat → Nat → Nat × Option WaitErr
  | 0, i => (i, some .timeout)
  | steps + 1, i =>
      match cond i with
      | (_, some e) => (i + 1, some (.err e))
      | (true, none) => (i + 1, none)
      | (false, none) =>
          if steps = 0 then (i + 1, some .timeout)
          else exponentialBackoff cond steps (i + 1)

/-- The verifyWorkloadExists closure of emitAppRevisionForRollout: a Get
error is returned as the condition's error (it does NOT report
false-with-no-error), a successful read reports done. -/
def verifyCond (read : Option GetErr) : Bool × Option GetErr :=
  match read with
  | some e => (false, some e)
  | none => (true, none)

/-- Reconciler.emitAppRevisionForRollout: assemble the revision's manifests
(prepared for rollout), dispatch them (upgrading ownership from the
previous revision's tracker when one is given), then wait with
wait.ExponentialBackoff until the first manifest's workload is readable,
and finally disable its controller owners. -/
def emitAppRevisionForRollout (env : ReconcileEnv) (curAppRev : AppRevisionR)
    (previousAppRev : Option AppRevisionR) : List Action × Option RecErr :=
  match env.manifests curAppRev.name with
  | .error _ => ([], some (.assembleFailed curAppRev.name))
  | .ok m =>
      if m.isEmpty then ([], some .emptyManifests)
      else
        let upgradeFrom := previousAppRev.map
          (fun p => ConstructResourceTrackerName p.name p.nameSpace)
        let acts := [Action.dispatchForRollout curAppRev.name upgradeFrom]
        match env.dispatchErr curAppRev.name with
        | some _ => (acts, some (.dispatchFailed curAppRev.name))
        | none =>
            match exponentialBackoff (fun i => verifyCond (env.workloadReads curAppRev.name i))
                defaultBackoffSteps 0 with
            | (_, some w) => (acts, some (.wait w))
            | (_, none) => (acts ++ [Action.disableOwner curAppRev.name], none)

/-- Reconciler.finalizeRollingSucceeded: re-assemble the target's manifests
(without rollout preparation) and dispatch them, GC enabled against the
source revision's tracker when a source revision exists. -/
def finalizeRollingSucceeded (env : ReconcileEnv) (sourceAppRev : Option AppRevisionR)
    (targetAppRev : AppRevisionR) : List Action × Option RecErr :=
  match env.manifests targetAppRev.name with
  | .error _ => ([], some (.assembleFailed targetAppRev.name))
  | .ok _ =>
      let gc := sourceAppRev.map (fun s => ConstructResourceTrackerName s.name s.nameSpace)
      let acts := [Action.finalDispatch targetAppRev.name gc]
      match env.dispatchErr targetAppRev.name with
      | some _ => (acts, some (.dispatchFailed targetAppRev.name))
      | none => (acts, none)

/-- What a reconciliation pass leaves behind: the in-memory status, the
cluster-visible actions in order, and the returned error if any. -/
structure ReconcileOutcome where
  status : AppRolloutStatus
  actions : List Action
  error : Option RecErr
deriving DecidableEq, Repr

/-- Lines 207-230 of DoReconcile: run the nested rollout-plan executor,
copy its status back, record the spec revisions as last-applied unless the
executor left the rollout abandoning, and on success garbage-collect the
source revision via finalizeRollingSucceeded; on failure only the status
copy-back happens. -/
def afterPlanExecutor (env : ReconcileEnv) (ar : AppRollout) (st2 : AppRolloutStatus)
    (sourceAppRev : Option AppRevisionR) (targetAppRev : AppRevisionR)
    (acts : List Action) : ReconcileOutcome :=
  let post := env.planExec (st2.rollingState.getD .locatingTargetApp)
  let st3 := { st2 with rollingState := some post }
  let st4 :=
    if post ≠ RollingState.rolloutAbandoning then
      { st3 with lastUpgradedTargetAppRevision := ar.spec.targetAppRevisionName,
                 lastSourceAppRevision := ar.spec.sourceAppRevisionName }
    else st3
  if post = RollingState.rolloutSucceed then
    match finalizeRollingSucceeded env sourceAppRev targetAppRev with
    | (facts, oe) => { status := st4, actions := acts ++ facts, error := oe }
  else
    { status := st4, actions := acts, error := none }

/-- The target-revision half of the non-deleting branch of DoReconcile:
resolve the target (any error aborts the pass), and in the locating state
emit it (upgrading from the source revision) and fire AppLocated. -/
def nonDeletingTarget (env : ReconcileEnv) (ar : AppRollout) (p : PinnedNames)
    (sourceAppRev : Option AppRevisionR) (acts : List Action) : ReconcileOutcome :=
  match env.getAppRevision p.target with
  | .error e =>
      { status := p.status, actions := acts ++ [Action.resolve p.target],
        error := some (.resolve e) }
  | .ok trev =>
      if p.status.rollingState = some RollingState.locatingTargetApp then
        match emitAppRevisionForRollout env trev sourceAppRev with
        | (eacts, some e) =>
            { status := p.status, actions := acts ++ [Action.resolve p.target] ++ eacts,
              error := some e }
        | (eacts, none) =>
            afterPlanExecutor env ar (applyStateTransition p.status .appLocated) sourceAppRev
              trev (acts ++ [Action.resolve p.target] ++ eacts)
      else
        afterPlanExecutor env ar p.status sourceAppRev trev (acts ++ [Action.resolve p.target])

/-- Reconciler.DoReconcile: reset an unset status, skip terminated
rollouts, handle a modification, then resolve (and in the locating state
emit) the source and target revisions — tolerating only a NotFound source
while deleting — and finally hand over to the nested plan executor. -/
def doReconcile (env : ReconcileEnv) (ar : AppRollout) : ReconcileOutcome :=
  let st0 :=
    match ar.status.rollingState with
    | none => resetStatus ar.status
    | some _ => ar.status
  if handleRollingTerminated st0 ar.spec.targetAppRevisionName
      ar.spec.sourceAppRevisionName then
    { status := st0, actions := [], error := none }
  else
    let p := pinnedNames st0 ar.spec
    if p.status.rollingState = some RollingState.rolloutDeleting then
      let srcActs := if p.source = "" then [] else [Action.resolve p.source]
      let srcRes : Except GetErr (Option AppRevisionR) :=
        if p.source = "" then .ok none
        else
          match env.getAppRevision p.source with
          | .error e => if e = .notFound then .ok none else .error e
          | .ok rev => .ok (some rev)
      match srcRes with
      | .error e => { status := p.status, actions := srcActs, error := some (.resolve e) }
      | .ok srcRev =>
          match env.getAppRevision p.target with
          | .error e =>
              { status := p.status, actions := srcActs ++ [Action.resolve p.target],
                error := some (.resolve e) }
          | .ok trev =>
              afterPlanExecutor env ar p.status srcRev trev
                (srcActs ++ [Action.resolve p.target])
    else
      if p.source = "" then
        nonDeletingTarget env ar p none []
      else
        match env.getAppRevision p.source with
        | .error e =>
            { status := p.status, actions := [Action.resolve p.source],
              error := some (.resolve e) }
        | .ok srev =>
            if p.status.rollingState = some RollingState.locatingTargetApp then
              match emitAppRevisionForRollout env srev none with
              | (eacts, some e) =>
                  { status := p.status, actions := [Action.resolve p.source] ++ eacts,
                    error := some e }
              | (eacts, none) =>
                  nonDeletingTarget env ar p (some srev) ([Action.resolve p.source] ++ eacts)
            else
              nonDeletingTarget env ar p (some srev) [Action.resolve p.source]

/-- Reconciler.disableCtrlOwner: rebuild the owner-reference list, turning
off the Controller flag of every reference whose flag is set and true, and
patch the workload with the result (only the owner references change). -/
def disableCtrlOwner (wl : Unstructured) : Unstructured :=
  { wl with
    ownerReferences :=
      wl.ownerReferences.foldl
        (fun acc o =>
          acc ++ [if o.controller = some true then { o with controller := some false } else o])
        [] }

/-! Concrete inputs used by the claim witnesses and counterexamples. -/

/-- Bare workload object, as a renderer would leave it. -/
def c1Workload : Unstructured :=
  { apiVersion := "apps/v1", kind := "Deployment", name := "", nameSpace := "",
    labels := [], annotations := [], ownerReferences := [], fields := [] }

/-- Assembler context whose application labels reuse the canonical key
"app.oam.dev/name" with a non-canonical value. -/
def c1Ctx : AssembleCtx :=
  { appRevisionName := "myapp-v1",
    appRevisionLabels := [(oam.LabelAppRevisionHash, "ce053923e2fb403f")],
    appName := "myapp",
    appNamespace := "default",
    appLables := [(oam.LabelAppName, "label-from-application")],
    appAnnotations := [],
    appOwnerRef := none,
    comps := [], components := [], traitDefinitions := [], componentDefinitions := [],
    workloadOptions := [] }

/-- Assembler context whose application labels are disjoint from the
canonical keys. -/
def c1DisjointCtx : AssembleCtx :=
  { appRevisionName := "myapp-v1",
    appRevisionLabels := [(oam.LabelAppRevisionHash, "ce053923e2fb403f")],
    appName := "myapp",
    appNamespace := "default",
    appLables := [("team", "platform")],
    appAnnotations := [],
    appOwnerRef := none,
    comps := [], components := [], traitDefinitions := [], componentDefinitions := [],
    workloadOptions := [] }

/-- Concrete assembler context for the C7 witness: one component, one trait
definition declaring a workload-reference path. -/
def c7Ctx : AssembleCtx :=
  { appRevisionName := "myapp-v1",
    appRevisionLabels := [(oam.LabelAppRevisionHash, "h1")],
    appName := "myapp", appNamespace := "default",
    appLables := [], appAnnotations := [],
    appOwnerRef := some { apiVersion := "core.oam.dev/v1beta1", kind := "Application",
                          name := "myapp", uid := "u1", controller := some true,
                          blockOwnerDeletion := some true },
    comps := [{ name := "mycomp",
                workload := some { apiVersion := "apps/v1", kind := "Deployment", name := "",
                                   nameSpace := "", labels := [], annotations := [],
                                   ownerReferences := [], fields := [] } }],
    components := [],
    traitDefinitions := [("ingress", { workloadRefPath := "spec.workloadRef" })],
    componentDefinitions := [], workloadOptions := [] }

/-- Concrete application-configuration component for the C7 witness. -/
def c7Acc : AppConfigComponent :=
  { revisionName := "mycomp-v1",
    traits := [{ trait := some { apiVersion := "networking/v1", kind := "Ingress", name := "",
                                 nameSpace := "", labels := [(oam.TraitTypeLabel, "ingress")],
                                 annotations := [], ownerReferences := [], fields := [] } }],
    scopes := [] }

/-- The workload assembleComponent produces on the C7 witness input. -/
def c7Wl : Unstructured :=
  { apiVersion := "apps/v1", kind := "Deployment", name := "mycomp", nameSpace := "default",
    labels := [("app.oam.dev/resourceType", "WORKLOAD"),
               ("app.oam.dev/name", "myapp"),
               ("app.oam.dev/appRevision", "myapp-v1"),
               ("app.oam.dev/app-revision-hash", "h1"),
               ("app.oam.dev/component", "mycomp"),
               ("app.oam.dev/revision", "mycomp-v1")],
    annotations := [],
    ownerReferences := [{ apiVersion := "core.oam.dev/v1beta1", kind := "Application",
                          name := "myapp", uid := "u1", controller := some true,
                          blockOwnerDeletion := some true }],
    fields := [] }

/-- The trait assembleComponent produces on the C7 witness input. -/
def c7AssembledTrait : Unstructured :=
  { apiVersion := "networking/v1", kind := "Ingress", name := "mycomp-ingress",
    nameSpace := "default",
    labels := [("trait.oam.dev/type", "ingress"),
               ("app.oam.dev/resourceType", "TRAIT"),
               ("app.oam.dev/name", "myapp"),
               ("app.oam.dev/appRevision", "myapp-v1"),
               ("app.oam.dev/app-revision-hash", "h1"),
               ("app.oam.dev/component", "mycomp"),
               ("app.oam.dev/revision", "mycomp-v1")],
    annotations := [],
    ownerReferences := [{ apiVersion := "core.oam.dev/v1beta1", kind := "Application",
                          name := "myapp", uid := "u1", controller := some true,
                          blockOwnerDeletion := some true }],
    fields := [("spec.workloadRef",
                FieldValue.ref { apiVersion := "apps/v1", kind := "Deployment",
                                 name := "mycomp" })] }

/-- The full component output on the C7 witness input. -/
def c7Out : ComponentOutput :=
  { workload := some c7Wl,
    workloadRef := { apiVersion := "apps/v1", kind := "Deployment", name := "mycomp" },
    traits := [c7AssembledTrait],
    scopes := [] }

/-- Revision with no controller owner: its only owner reference has the
Controller flag unset. -/
def c8BadRev : ApplicationRevisionA :=
  { name := "myapp-v1",
    labels := [(oam.LabelAppRevisionHash, "h1")],
    appConfig := { name := "myapp", nameSpace := "default", labels := [], annotations := [],
                   ownerReferences := [{ apiVersion := "core.oam.dev/v1beta1",
                                         kind := "Application", name := "myapp", uid := "u1",
                                         controller := some false,
                                         blockOwnerDeletion := none }],
                   components := [] },
    comps := [], traitDefinitions := [], componentDefinitions := [] }

/-- Revision satisfying both preconditions. -/
def c8GoodRev : ApplicationRevisionA :=
  { name := "myapp-v1",
    labels := [(oam.LabelAppRevisionHash, "h1")],
    appConfig := { name := "myapp", nameSpace := "default", labels := [], annotations := [],
                   ownerReferences := [{ apiVersion := "core.oam.dev/v1beta1",
                                         kind := "Application", name := "myapp", uid := "u1",
                                         controller := some true,
                                         blockOwnerDeletion := none }],
                   components := [] },
    comps := [], traitDefinitions := [], componentDefinitions := [] }

/-- Terminal rollout with unchanged revisions, for C4. -/
def c4Rollout : AppRollout :=
  { spec := { targetAppRevisionName := "rev-2", sourceAppRevisionName := "rev-1" },
    status := { rollingState := some .rolloutSucceed,
                lastUpgradedTargetAppRevision := "rev-2",
                lastSourceAppRevision := "rev-1" } }

/-- Environment in which every collaborator call would fail: C4's no-op
pass must not notice. -/
def c4Env : ReconcileEnv :=
  { getAppRevision := fun _ => .error .other,
    manifests := fun _ => .error "unavailable",
    dispatchErr := fun _ => some "unavailable",
    workloadReads := fun _ _ => some .other,
    planExec := fun s => s }

/-- Scale-operation rollout (no source) stuck locating its target, for C6. -/
def c6Rollout : AppRollout :=
  { spec := { targetAppRevisionName := "rev-1", sourceAppRevisionName := "" },
    status := { rollingState := some .locatingTargetApp,
                lastUpgradedTargetAppRevision := "", lastSourceAppRevision := "" } }

/-- Environment in which no revision resolves. -/
def c6Env : ReconcileEnv :=
  { getAppRevision := fun _ => .error .notFound,
    manifests := fun _ => .ok [{ name := "comp", nameSpace := "default" }],
    dispatchErr := fun _ => none,
    workloadReads := fun _ _ => none,
    planExec := fun s => s }

/-- Mid-flight rollout rev-1 to rev-2 whose revisions match the recorded
last-applied values, for C2. -/
def c2Rollout : AppRollout :=
  { spec := { targetAppRevisionName := "rev-2", sourceAppRevisionName := "rev-1" },
    status := { rollingState := some .rollingInBatches,
                lastUpgradedTargetAppRevision := "rev-2",
                lastSourceAppRevision := "rev-1" } }

/-- Environment whose nested plan executor reports success. -/
def c2Env : ReconcileEnv :=
  { getAppRevision := fun n => .ok { name := n, nameSpace := "default" },
    manifests := fun _ => .ok [{ name := "comp", nameSpace := "default" }],
    dispatchErr := fun _ => none,
    workloadReads := fun _ _ => none,
    planExec := fun _ => .rolloutSucceed }

/-- Rollout in the Deleting state whose spec target moved to "rev-3" while
"rev-2" is recorded as last applied. -/
def c3Rollout : AppRollout :=
  { spec := { targetAppRevisionName := "rev-3", sourceAppRevisionName := "" },
    status := { rollingState := some .rolloutDeleting,
                lastUpgradedTargetAppRevision := "rev-2", lastSourceAppRevision := "" } }

/-- Environment in which only "rev-3" resolves. -/
def c3Env : ReconcileEnv :=
  { getAppRevision := fun n =>
      if n = "rev-3" then .ok { name := "rev-3", nameSpace := "default" }
      else .error .notFound,
    manifests := fun _ => .ok [{ name := "comp", nameSpace := "default" }],
    dispatchErr := fun _ => none,
    workloadReads := fun _ _ => none,
    planExec := fun s => s }

/-- Modified rollout (Rolling, target moved rev-2 to rev-3) for the C3
amended-theorem witness. -/
def c3ModifiedStatus : AppRolloutStatus :=
  { rollingState := some .rollingInBatches,
    lastUpgradedTargetAppRevision := "rev-2", lastSourceAppRevision := "rev-1" }

/-- Spec requesting the new target rev-3 for the C3 witness. -/
def c3ModifiedSpec : AppRolloutSpec :=
  { targetAppRevisionName := "rev-3", sourceAppRevisionName := "rev-1" }

/-- Environment whose first workload read fails NotFound while every later
read would succeed: read-after-write lag on the just-dispatched workload. -/
def c5Env : ReconcileEnv :=
  { getAppRevision := fun _ => .error .notFound,
    manifests := fun _ => .ok [{ name := "comp", nameSpace := "default" }],
    dispatchErr := fun _ => none,
    workloadReads := fun _ i => if i = 0 then some .notFound else none,
    planExec := fun s => s }

/-- The just-dispatched revision for C5. -/
def c5Rev : AppRevisionR := { name := "todo-v2", nameSpace := "default" }

/-- Rollout in the Deleting state with changed revisions, for C10. -/
def c10DeletingRollout : AppRollout :=
  { spec := { targetAppRevisionName := "rev-3", sourceAppRevisionName := "rev-1" },
    status := { rollingState := some .rolloutDeleting,
                lastUpgradedTargetAppRevision := "rev-2",
                lastSourceAppRevision := "rev-1" } }

/-- First rollout: empty last-applied values, fresh spec revisions. -/
def c10FirstRollout : AppRollout :=
  { spec := { targetAppRevisionName := "rev-1", sourceAppRevisionName := "" },
    status := { rollingState := some .locatingTargetApp,
                lastUpgradedTargetAppRevision := "", lastSourceAppRevision := "" } }

/-! Lookup lemmas for the label-map model. -/

theorem lookupM_append {α : Type} (a b : List (String × α)) (k : String) :
    lookupM (a ++ b) k =
      match lookupM a k with
      | some v => some v
      | none => lookupM b k := by
  induction a with
  | nil => simp [lookupM]
  | cons hd tl ih =>
    obtain ⟨k1, v⟩ := hd
    by_cases h : k1 = k
    · simp [lookupM, h]
    · simp [lookupM, h, ih]

theorem lookupM_filter {α : Type} (l : List (String × α)) (q : String → Bool) (k : String) :
    lookupM (l.filter (fun p => q p.1)) k = if q k then lookupM l k else none := by
  induction l with
  | nil => simp [lookupM]
  | cons hd tl ih =>
    obtain ⟨k1, v⟩ := hd
    by_cases hq : q k1
    · rw [List.filter_cons_of_pos (by simpa using hq)]
      by_cases hk : k1 = k
      · subst hk
        simp [lookupM, hq]
      · simp [lookupM, hk, ih]
    · rw [List.filter_cons_of_neg (by simpa using hq)]
      by_cases hk : k1 = k
      · subst hk
        simp [lookupM, hq, ih]
      · simp [lookupM, hk, ih]

theorem lookupM_MergeMapOverrideWithDst (src dst : LabelMap) (k : String) :
    lookupM (util.MergeMapOverrideWithDst src dst) k =
      match lookupM dst k with
      | some v => some v
      | none => lookupM src k := by
  unfold util.MergeMapOverrideWithDst
  rw [lookupM_append, lookupM_filter src (fun s => (lookupM dst s).isNone) k]
  cases h : lookupM dst k
  · simp [h]
    cases lookupM src k <;> rfl
  · simp [h]

theorem lookupM_AddLabels (obj : Unstructured) (ls : LabelMap) (k : String) :
    lookupM (util.AddLabels obj ls).labels k =
      match lookupM ls k with
      | some v => some v
      | none => lookupM obj.labels k := by
  simp [util.AddLabels, lookupM_MergeMapOverrideWithDst]

theorem lookupM_setWorkloadLables (wl : Unstructured) (common : LabelMap) (k : String)
    (v : String) (hv : lookupM common k = some v) :
    lookupM (setWorkloadLables wl common).labels k = some v := by
  unfold setWorkloadLables
  rw [lookupM_AddLabels, hv]

theorem lookupM_setTraitLables (trait : Unstructured) (common : LabelMap) (k : String)
    (v : String) (hv : lookupM common k = some v) :
    lookupM (setTraitLables trait common).labels k = some v := by
  unfold setTraitLables
  rw [lookupM_AddLabels, hv]

theorem lookupM_generateCommonLables (o : AssembleCtx) (compName compRevisionName k : String)
    (h : lookupM o.appLables k = none) :
    lookupM (generateCommonLables o compName compRevisionName) k =
      lookupM
        [ (oam.LabelAppName, o.appName),
          (oam.LabelAppRevision, o.appRevisionName),
          (oam.LabelAppRevisionHash, (lookupM o.appRevisionLabels oam.LabelAppRevisionHash).getD ""),
          (oam.LabelAppComponent, compName),
          (oam.LabelAppComponentRevision, compRevisionName) ] k := by
  unfold generateCommonLables
  rw [lookupM_MergeMapOverrideWithDst, h]

/-! Claim C1. -/

/-- C1 counterexample: when the application's own labels contain the
canonical key "app.oam.dev/name", the assembled workload's final label map
carries the application's value, not the canonical application name —
util.MergeMapOverrideWithDst keeps the dst (application) entry on
conflict, so a canonical label IS clobbered by an application label. -/
theorem c1_counterexample :
    lookupM (setWorkloadLables c1Workload (generateCommonLables c1Ctx "mycomp" "mycomp-v1")).labels
        oam.LabelAppName = some "label-from-application" ∧
    c1Ctx.appName = "myapp" ∧ ("label-from-application" : String) ≠ "myapp" := by
  decide

/-- C1 (amended): the merge fixes the canonical keys first and the
application labels are merged over them with the application winning on
conflict; therefore, whenever the application's own label map is disjoint
from the five canonical keys, every assembled workload and trait carries
all canonical identity labels with their canonical values. -/
theorem c1_canonical_labels_when_disjoint (o : AssembleCtx)
    (compName compRevisionName : String) (wl trait : Unstructured)
    (h1 : lookupM o.appLables oam.LabelAppName = none)
    (h2 : lookupM o.appLables oam.LabelAppRevision = none)
    (h3 : lookupM o.appLables oam.LabelAppRevisionHash = none)
    (h4 : lookupM o.appLables oam.LabelAppComponent = none)
    (h5 : lookupM o.appLables oam.LabelAppComponentRevision = none) :
    (lookupM (setWorkloadLables wl (generateCommonLables o compName compRevisionName)).labels
        oam.LabelAppName = some o.appName ∧
     lookupM (setWorkloadLables wl (generateCommonLables o compName compRevisionName)).labels
        oam.LabelAppRevision = some o.appRevisionName ∧
     lookupM (setWorkloadLables wl (generateCommonLables o compName compRevisionName)).labels
        oam.LabelAppRevisionHash
        = some ((lookupM o.appRevisionLabels oam.LabelAppRevisionHash).getD "") ∧
     lookupM (setWorkloadLables wl (generateCommonLables o compName compRevisionName)).labels
        oam.LabelAppComponent = some compName ∧
     lookupM (setWorkloadLables wl (generateCommonLables o compName compRevisionName)).labels
        oam.LabelAppComponentRevision = some compRevisionName) ∧
    (lookupM (setTraitLables trait (generateCommonLables o compName compRevisionName)).labels
        oam.LabelAppName = some o.appName ∧
     lookupM (setTraitLables trait (generateCommonLables o compName compRevisionName)).labels
        oam.LabelAppRevision = some o.appRevisionName ∧
     lookupM (setTraitLables trait (generateCommonLables o compName compRevisionName)).labels
        oam.LabelAppRevisionHash
        = some ((lookupM o.appRevisionLabels oam.LabelAppRevisionHash).getD "") ∧
     lookupM (setTraitLables trait (generateCommonLables o compName compRevisionName)).labels
        oam.LabelAppComponent = some compName ∧
     lookupM (setTraitLables trait (generateCommonLables o compName compRevisionName)).labels
        oam.LabelAppComponentRevision = some compRevisionName) := by
  have hname : lookupM (generateCommonLables o compName compRevisionName) oam.LabelAppName
      = some o.appName := by
    rw [lookupM_generateCommonLables o compName compRevisionName _ h1]
    simp [lookupM, oam.LabelAppName]
  have hrev : lookupM (generateCommonLables o compName compRevisionName) oam.LabelAppRevision
      = some o.appRevisionName := by
    rw [lookupM_generateCommonLables o compName compRevisionName _ h2]
    simp [lookupM, oam.LabelAppName, oam.LabelAppRevision]
  have hhash : lookupM (generateCommonLables o compName compRevisionName) oam.LabelAppRevisionHash
      = some ((lookupM o.appRevisionLabels oam.LabelAppRevisionHash).getD "") := by
    rw [lookupM_generateCommonLables o compName compRevisionName _ h3]
    simp [lookupM, oam.LabelAppName, oam.LabelAppRevision, oam.LabelAppRevisionHash]
  have hcomp : lookupM (generateCommonLables o compName compRevisionName) oam.LabelAppComponent
      = some compName := by
    rw [lookupM_generateCommonLables o compName compRevisionName _ h4]
    simp [lookupM, oam.LabelAppName, oam.LabelAppRevision, oam.LabelAppRevisionHash,
      oam.LabelAppComponent]
  have hcrev : lookupM (generateCommonLables o compName compRevisionName)
      oam.LabelAppComponentRevision = some compRevisionName := by
    rw [lookupM_generateCommonLables o compName compRevisionName _ h5]
    simp [lookupM, oam.LabelAppName, oam.LabelAppRevision, oam.LabelAppRevisionHash,
      oam.LabelAppComponent, oam.LabelAppComponentRevision]
  exact ⟨⟨lookupM_setWorkloadLables wl _ _ _ hname,
          lookupM_setWorkloadLables wl _ _ _ hrev,
          lookupM_setWorkloadLables wl _ _ _ hhash,
          lookupM_setWorkloadLables wl _ _ _ hcomp,
          lookupM_setWorkloadLables wl _ _ _ hcrev⟩,
         ⟨lookupM_setTraitLables trait _ _ _ hname,
          lookupM_setTraitLables trait _ _ _ hrev,
          lookupM_setTraitLables trait _ _ _ hhash,
          lookupM_setTraitLables trait _ _ _ hcomp,
          lookupM_setTraitLables trait _ _ _ hcrev⟩⟩

/-! Claim C7. -/

theorem lookupM_insertField (fs : List (String × FieldValue)) (k : String) (v : FieldValue) :
    lookupM (insertField fs k v) k = some v := by
  induction fs with
  | nil => simp [insertField, lookupM]
  | cons hd tl ih =>
    obtain ⟨k1, w⟩ := hd
    by_cases h : k1 = k
    · simp [insertField, h, lookupM]
    · simp [insertField, h, lookupM, ih]

theorem setWorkloadRefToTrait_spec (o : AssembleCtx) (ref : TypedReference)
    (t5 t : Unstructured) (h : setWorkloadRefToTrait o ref t5 = .ok t) :
    (workloadRefPathFor o t ≠ "" →
      lookupM t.fields (workloadRefPathFor o t) = some (.ref ref)) ∧
    (workloadRefPathFor o t = "" → ∀ r, setWorkloadRefToTrait o r t = .ok t) := by
  unfold setWorkloadRefToTrait at h
  by_cases hp : workloadRefPathFor o t5 = ""
  · rw [if_pos hp] at h
    injection h with h1
    subst h1
    refine ⟨fun hne => absurd hp hne, fun _ r => ?_⟩
    unfold setWorkloadRefToTrait
    rw [if_pos hp]
  · rw [if_neg hp] at h
    injection h with h1
    subst h1
    have hpath : workloadRefPathFor o
        { t5 with fields := insertField t5.fields (workloadRefPathFor o t5) (.ref ref) }
        = workloadRefPathFor o t5 := rfl
    constructor
    · intro _
      rw [hpath]
      exact lookupM_insertField t5.fields (workloadRefPathFor o t5) (.ref ref)
    · intro he
      rw [hpath] at he
      exact absurd he hp

theorem assembleTrait_src (o : AssembleCtx) (common : LabelMap) (compName : String)
    (ref : TypedReference) (ct : ComponentTrait) (t : Unstructured)
    (h : assembleTrait o common compName ref ct = .ok t) :
    ∃ t5, setWorkloadRefToTrait o ref t5 = .ok t := by
  unfold assembleTrait at h
  cases hct : ct.trait with
  | none =>
    rw [hct] at h
    simp [util.RawExtension2Unstructured] at h
  | some t0 =>
    rw [hct] at h
    simp only [util.RawExtension2Unstructured] at h
    split at h
    · cases h
    · injection h with h1
      subst h1
      exact ⟨_, by assumption⟩

theorem assembleTraits_mem (o : AssembleCtx) (common : LabelMap) (compName : String)
    (ref : TypedReference) (cts : List ComponentTrait) (ts : List Unstructured)
    (h : assembleTraits o common compName ref cts = .ok ts) :
    ∀ t ∈ ts, ∃ ct, assembleTrait o common compName ref ct = .ok t := by
  induction cts generalizing ts with
  | nil =>
    unfold assembleTraits at h
    injection h with h1
    subst h1
    intro t ht
    simp at ht
  | cons ct rest ih =>
    unfold assembleTraits at h
    split at h
    · cases h
    · split at h
      · cases h
      · injection h with h1
        subst h1
        intro t ht
        rcases List.mem_cons.mp ht with h2 | h2
        · subst h2
          exact ⟨ct, by assumption⟩
        · exact ih _ (by assumption) t h2

/-- C7: every trait assembled next to a sibling workload whose trait
definition declares a non-empty workload-reference path carries, at that
path, exactly the sibling workload's apiVersion/kind/name reference; a
trait whose definition declares no path is left unchanged by reference
injection. -/
theorem c7_trait_workload_ref (o : AssembleCtx) (acc : AppConfigComponent)
    (out : ComponentOutput) (wl : Unstructured)
    (hok : assembleComponent o acc = .ok out)
    (hwl : out.workload = some wl) :
    ∀ t ∈ out.traits,
      (workloadRefPathFor o t ≠ "" →
        lookupM t.fields (workloadRefPathFor o t)
          = some (FieldValue.ref
              { apiVersion := wl.apiVersion, kind := wl.kind, name := wl.name })) ∧
      (workloadRefPathFor o t = "" → ∀ r, setWorkloadRefToTrait o r t = .ok t) := by
  unfold assembleComponent at hok
  split at hok
  · cases hok
  · split at hok
    · cases hok
    · injection hok with h1
      subst h1
      simp only at hwl
      subst hwl
      intro t ht
      simp only at ht
      obtain ⟨ct, hct⟩ := assembleTraits_mem _ _ _ _ _ _ (by assumption) t ht
      obtain ⟨t5, h5⟩ := assembleTrait_src _ _ _ _ _ _ hct
      simpa [workloadRefOf] using setWorkloadRefToTrait_spec _ _ _ _ h5

/-- C7 witness: the theorem applied at a concrete component whose trait
definition declares the path "spec.workloadRef". -/
theorem c7_trait_workload_ref_witness :
    lookupM c7AssembledTrait.fields (workloadRefPathFor c7Ctx c7AssembledTrait)
      = some (FieldValue.ref { apiVersion := "apps/v1", kind := "Deployment",
                               name := "mycomp" }) :=
  (c7_trait_workload_ref c7Ctx c7Acc c7Out c7Wl (by decide) (by decide) c7AssembledTrait
      (List.Mem.head _)).1 (by decide)

/-! Claim C8. -/

/-- C8: Assemble fails with an error (returning no manifests) whenever the
revision has no resolvable controller-owner or its revision-hash label is
absent or empty; when both preconditions hold, validation passes and
Assemble is exactly the result of the assembly step. -/
theorem c8_assemble_preconditions (rev : ApplicationRevisionA) (opts : List WorkloadOption) :
    ((getControllerOf rev.appConfig.ownerReferences = none ∨
        (lookupM rev.labels oam.LabelAppRevisionHash).getD "" = "") →
      (Assemble rev opts).toOption = none) ∧
    (getControllerOf rev.appConfig.ownerReferences ≠ none →
      (lookupM rev.labels oam.LabelAppRevisionHash).getD "" ≠ "" →
      validate (complete rev opts) = .ok () ∧
      Assemble rev opts =
        (match assembleAll (complete rev opts) (complete rev opts).components with
         | .error e => .error ("cannot assemble manifests of application: " ++ e)
         | .ok m => .ok m)) := by
  have hassemble : Assemble rev opts =
      (match validate (complete rev opts) with
       | .error e => .error ("cannot assemble manifests of application: " ++ e)
       | .ok _ =>
           match assembleAll (complete rev opts) (complete rev opts).components with
           | .error e => .error ("cannot assemble manifests of application: " ++ e)
           | .ok m => .ok m) := rfl
  have hvalidate : validate (complete rev opts) =
      (match getControllerOf rev.appConfig.ownerReferences with
       | none => .error "AppRevision must have an Application as owner"
       | some _ =>
           if (lookupM rev.labels oam.LabelAppRevisionHash).getD "" = "" then
             .error "AppRevision must have revision hash recorded in the lable"
           else .ok ()) := rfl
  constructor
  · intro h
    rw [hassemble, hvalidate]
    rcases h with h | h
    · rw [h]
      rfl
    · cases ho : getControllerOf rev.appConfig.ownerReferences with
      | none => rfl
      | some r =>
          rw [if_pos h]
          rfl
  · intro h1 h2
    have hval : validate (complete rev opts) = .ok () := by
      rw [hvalidate]
      cases ho : getControllerOf rev.appConfig.ownerReferences with
      | none => exact absurd ho h1
      | some r => rw [if_neg h2]
    exact ⟨hval, by rw [hassemble, hval]⟩

/-- C8 witness: the theorem applied at a revision lacking a controller
owner (assembly refused) and at a revision with both preconditions
(validation passes). -/
theorem c8_assemble_preconditions_witness :
    (Assemble c8BadRev []).toOption = none ∧
    validate (complete c8GoodRev []) = .ok () :=
  ⟨(c8_assemble_preconditions c8BadRev []).1 (Or.inl (by decide)),
   ((c8_assemble_preconditions c8GoodRev []).2 (by decide) (by decide)).1⟩

/-! Claim C9. -/

theorem foldl_append_map {α β : Type} (f : α → β) (l : List α) (init : List β) :
    l.foldl (fun acc o => acc ++ [f o]) init = init ++ l.map f := by
  induction l generalizing init with
  | nil => simp
  | cons hd tl ih => simp [ih]

/-- C9: disableCtrlOwner turns off the Controller flag of exactly the owner
references whose flag was true, changes nothing else in any owner
reference, and leaves every other field of the workload unchanged. -/
theorem c9_disable_ctrl_owner (wl : Unstructured) :
    (disableCtrlOwner wl).ownerReferences =
      wl.ownerReferences.map
        (fun o => if o.controller = some true then { o with controller := some false } else o) ∧
    (disableCtrlOwner wl).apiVersion = wl.apiVersion ∧
    (disableCtrlOwner wl).kind = wl.kind ∧
    (disableCtrlOwner wl).name = wl.name ∧
    (disableCtrlOwner wl).nameSpace = wl.nameSpace ∧
    (disableCtrlOwner wl).labels = wl.labels ∧
    (disableCtrlOwner wl).annotations = wl.annotations ∧
    (disableCtrlOwner wl).fields = wl.fields := by
  refine ⟨?_, rfl, rfl, rfl, rfl, rfl, rfl, rfl⟩
  show wl.ownerReferences.foldl _ [] = _
  rw [foldl_append_map]
  rfl

/-! Claim C10. -/

/-- C10: isRolloutModified reports no modification while the rollout is
Deleting, and on a first rollout whose recorded last target and last source
are both empty, regardless of the spec's revision names. -/
theorem c10_modified_guard (ar : AppRollout) :
    (ar.status.rollingState = some RollingState.rolloutDeleting →
      isRolloutModified ar = false) ∧
    (ar.status.lastUpgradedTargetAppRevision = "" →
      ar.status.lastSourceAppRevision = "" →
      isRolloutModified ar = false) := by
  constructor
  · intro h
    simp [isRolloutModified, h]
  · intro h1 h2
    simp [isRolloutModified, h1, h2]

/-- C10 witness: the theorem applied to a Deleting rollout and to a first
rollout, both with changed spec revisions. -/
theorem c10_modified_guard_witness :
    isRolloutModified c10DeletingRollout = false ∧
    isRolloutModified c10FirstRollout = false :=
  ⟨(c10_modified_guard c10DeletingRollout).1 (by decide),
   (c10_modified_guard c10FirstRollout).2 (by decide) (by decide)⟩

/-! Claim C5. -/

/-- C5 (code bug): with the workload not yet readable on the first poll
(NotFound from read-after-write lag) and readable on every later poll,
emitAppRevisionForRollout fails the pass at once with that error — the
verification closure hands the Get error to wait.ExponentialBackoff, which
aborts on a condition error after exactly one evaluation instead of
retrying up to the backoff bound. -/
theorem c5_first_absent_read_aborts :
    emitAppRevisionForRollout c5Env c5Rev none =
      ([Action.dispatchForRollout "todo-v2" none],
        some (RecErr.wait (WaitErr.err GetErr.notFound))) ∧
    exponentialBackoff (fun i => verifyCond (c5Env.workloadReads "todo-v2" i))
        defaultBackoffSteps 0 = (1, some (WaitErr.err GetErr.notFound)) := by
  decide

/-! Claims C4, C6, C3, C2: the reconciliation pass. -/

theorem pinnedNames_not_modified (st : AppRolloutStatus) (spec : AppRolloutSpec)
    (h : isRolloutModified { spec := spec, status := st } = false) :
    pinnedNames st spec =
      { target := spec.targetAppRevisionName, source := spec.sourceAppRevisionName,
        status := st } := by
  simp [pinnedNames, h]

/-- C4: re-entering DoReconcile on a terminal rollout whose spec target and
source equal the recorded last-applied values is a no-op — the status is
returned untouched, no cluster action happens and no error is returned,
whatever the collaborators would do. -/
theorem c4_terminal_unchanged_noop (env : ReconcileEnv) (ar : AppRollout)
    (hterm : ar.status.rollingState = some RollingState.rolloutSucceed ∨
             ar.status.rollingState = some RollingState.rolloutFailed)
    (htarget : ar.status.lastUpgradedTargetAppRevision = ar.spec.targetAppRevisionName)
    (hsource : ar.status.lastSourceAppRevision = ar.spec.sourceAppRevisionName) :
    doReconcile env ar = { status := ar.status, actions := [], error := none } := by
  rcases hterm with h | h <;>
    simp [doReconcile, h, handleRollingTerminated, htarget, hsource]

/-- C4 witness: the theorem applied at a succeeded rollout in an
environment where every collaborator call fails. -/
theorem c4_terminal_unchanged_noop_witness :
    doReconcile c4Env c4Rollout = { status := c4Rollout.status, actions := [], error := none } :=
  c4_terminal_unchanged_noop c4Env c4Rollout (Or.inl (by decide)) (by decide) (by decide)

/-- C6: while locating the target (and not deleting, not modified), a
NotFound on the target revision makes DoReconcile return that error with
the rolling state still LocatingTarget — no transition to Failed. -/
theorem c6_target_notfound_keeps_locating (env : ReconcileEnv) (ar : AppRollout)
    (hloc : ar.status.rollingState = some RollingState.locatingTargetApp)
    (hmod : isRolloutModified ar = false)
    (htarget : env.getAppRevision ar.spec.targetAppRevisionName = .error .notFound)
    (hsrc : ar.spec.sourceAppRevisionName = "" ∨
      (ar.spec.sourceAppRevisionName ≠ "" ∧
        ∃ srev, env.getAppRevision ar.spec.sourceAppRevisionName = .ok srev ∧
          (emitAppRevisionForRollout env srev none).2 = none)) :
    (doReconcile env ar).error = some (RecErr.resolve GetErr.notFound) ∧
    (doReconcile env ar).status.rollingState = some RollingState.locatingTargetApp ∧
    (doReconcile env ar).status.rollingState ≠ some RollingState.rolloutFailed := by
  have hpin := pinnedNames_not_modified ar.status ar.spec hmod
  rcases hsrc with hempty | ⟨hne, srev, hok, hemit⟩
  · have hdo : doReconcile env ar =
        { status := ar.status,
          actions := [Action.resolve ar.spec.targetAppRevisionName],
          error := some (RecErr.resolve GetErr.notFound) } := by
      simp [doReconcile, hloc, handleRollingTerminated, hpin, hempty, nonDeletingTarget,
        htarget]
    rw [hdo]
    exact ⟨rfl, hloc, by simp [hloc]⟩
  · obtain ⟨eacts, hpair⟩ : ∃ eacts,
        emitAppRevisionForRollout env srev none = (eacts, none) := by
      refine ⟨(emitAppRevisionForRollout env srev none).1, ?_⟩
      rw [← hemit]
    have hdo : doReconcile env ar =
        { status := ar.status,
          actions := [Action.resolve ar.spec.sourceAppRevisionName] ++ eacts ++
            [Action.resolve ar.spec.targetAppRevisionName],
          error := some (RecErr.resolve GetErr.notFound) } := by
      simp [doReconcile, hloc, handleRollingTerminated, hpin, hne, hok, hpair,
        nonDeletingTarget, htarget]
    rw [hdo]
    exact ⟨rfl, hloc, by simp [hloc]⟩

/-- C6 witness: a scale rollout (no source) stuck locating a target that
does not resolve. -/
theorem c6_target_notfound_keeps_locating_witness :
    (doReconcile c6Env c6Rollout).error = some (RecErr.resolve GetErr.notFound) ∧
    (doReconcile c6Env c6Rollout).status.rollingState
      = some RollingState.locatingTargetApp ∧
    (doReconcile c6Env c6Rollout).status.rollingState
      ≠ some RollingState.rolloutFailed :=
  c6_target_notfound_keeps_locating c6Env c6Rollout (by decide) (by decide) (by decide)
    (Or.inl (by decide))

/-- C3 counterexample: in the Deleting state — which is neither Succeeded
nor Failed — with the spec target ("rev-3") differing from the last-applied
value ("rev-2"), the pass does NOT continue with the last-applied revision:
it resolves and acts on the new spec value "rev-3" and never touches
"rev-2", refuting the claim as stated for non-terminal states. -/
theorem c3_counterexample :
    c3Rollout.status.rollingState = some RollingState.rolloutDeleting ∧
    c3Rollout.status.rollingState ≠ some RollingState.rolloutSucceed ∧
    c3Rollout.status.rollingState ≠ some RollingState.rolloutFailed ∧
    c3Rollout.status.lastUpgradedTargetAppRevision ≠ c3Rollout.spec.targetAppRevisionName ∧
    (pinnedNames c3Rollout.status c3Rollout.spec).target = "rev-3" ∧
    (doReconcile c3Env c3Rollout).actions = [Action.resolve "rev-3"] ∧
    Action.resolve "rev-2" ∉ (doReconcile c3Env c3Rollout).actions := by
  decide

/-- C3 (amended): whenever isRolloutModified holds — the state is not
Deleting and a non-empty last-applied revision name differs from the spec —
a pass in a non-terminal state keeps working on the last-applied target and
source (the new spec values are not adopted as last-applied), while a pass
in a terminal state adopts the new spec values immediately and records them
as last-applied.  (In the Deleting state, or when the last-applied values
are empty, no modification is signalled and the spec values are used.) -/
theorem c3_modified_pinning (st : AppRolloutStatus) (spec : AppRolloutSpec)
    (hmod : isRolloutModified { spec := spec, status := st } = true) :
    (st.rollingState ≠ some RollingState.rolloutSucceed ∧
        st.rollingState ≠ some RollingState.rolloutFailed →
      (pinnedNames st spec).target = st.lastUpgradedTargetAppRevision ∧
      (pinnedNames st spec).source = st.lastSourceAppRevision ∧
      (pinnedNames st spec).status.lastUpgradedTargetAppRevision
        = st.lastUpgradedTargetAppRevision ∧
      (pinnedNames st spec).status.lastSourceAppRevision = st.lastSourceAppRevision) ∧
    (st.rollingState = some RollingState.rolloutSucceed ∨
        st.rollingState = some RollingState.rolloutFailed →
      (pinnedNames st spec).target = spec.targetAppRevisionName ∧
      (pinnedNames st spec).source = spec.sourceAppRevisionName ∧
      (pinnedNames st spec).status.lastUpgradedTargetAppRevision
        = spec.targetAppRevisionName ∧
      (pinnedNames st spec).status.lastSourceAppRevision
        = spec.sourceAppRevisionName) := by
  unfold pinnedNames
  rw [hmod]
  constructor
  · intro h
    rw [if_pos rfl, if_pos h]
    exact ⟨rfl, rfl, rfl, rfl⟩
  · intro h
    have hnot : ¬(st.rollingState ≠ some RollingState.rolloutSucceed ∧
        st.rollingState ≠ some RollingState.rolloutFailed) := by
      rcases h with h | h <;> simp [h]
    rw [if_pos rfl, if_neg hnot]
    exact ⟨rfl, rfl, rfl, rfl⟩

/-- C3 witness: the amended theorem at a Rolling rollout whose target moved
from rev-2 to rev-3 — the pass stays pinned to rev-2/rev-1. -/
theorem c3_modified_pinning_witness :
    (pinnedNames c3ModifiedStatus c3ModifiedSpec).target = "rev-2" ∧
    (pinnedNames c3ModifiedStatus c3ModifiedSpec).source = "rev-1" := by
  have h := (c3_modified_pinning c3ModifiedStatus c3ModifiedSpec (by decide)).1
    ⟨by decide, by decide⟩
  exact ⟨h.1, h.2.1⟩

/-- C2: once the pass reaches the nested plan executor (Rolling state,
revisions unchanged and resolvable), a success report makes the reconciler
record the spec revisions as last-applied and dispatch the target's
manifests once more with GC enabled against the source revision's resource
tracker; a failure report leaves the rollout in the Failed state with no
GC-enabled dispatch at all, so both revisions' resources stay intact. -/
theorem c2_plan_result_handling (env : ReconcileEnv) (ar : AppRollout)
    (srev trev : AppRevisionR) (ms : List Manifest)
    (hstate : ar.status.rollingState = some RollingState.rollingInBatches)
    (htarget : ar.status.lastUpgradedTargetAppRevision = ar.spec.targetAppRevisionName)
    (hsource : ar.status.lastSourceAppRevision = ar.spec.sourceAppRevisionName)
    (hne : ar.spec.sourceAppRevisionName ≠ "")
    (hgetS : env.getAppRevision ar.spec.sourceAppRevisionName = .ok srev)
    (hgetT : env.getAppRevision ar.spec.targetAppRevisionName = .ok trev)
    (hman : env.manifests trev.name = .ok ms)
    (hdisp : env.dispatchErr trev.name = none) :
    (env.planExec RollingState.rollingInBatches = RollingState.rolloutSucceed →
      doReconcile env ar =
        { status := { rollingState := some RollingState.rolloutSucceed,
                      lastUpgradedTargetAppRevision := ar.spec.targetAppRevisionName,
                      lastSourceAppRevision := ar.spec.sourceAppRevisionName },
          actions := [Action.resolve ar.spec.sourceAppRevisionName,
                      Action.resolve ar.spec.targetAppRevisionName,
                      Action.finalDispatch trev.name
                        (some (ConstructResourceTrackerName srev.name srev.nameSpace))],
          error := none }) ∧
    (env.planExec RollingState.rollingInBatches = RollingState.rolloutFailed →
      doReconcile env ar =
        { status := { rollingState := some RollingState.rolloutFailed,
                      lastUpgradedTargetAppRevision := ar.spec.targetAppRevisionName,
                      lastSourceAppRevision := ar.spec.sourceAppRevisionName },
          actions := [Action.resolve ar.spec.sourceAppRevisionName,
                      Action.resolve ar.spec.targetAppRevisionName],
          error := none } ∧
      ∀ a ∈ (doReconcile env ar).actions, ∀ revName gc,
        a ≠ Action.finalDispatch revName gc) := by
  have hmod : isRolloutModified ar = false := by
    simp [isRolloutModified, htarget, hsource]
  have hpin := pinnedNames_not_modified ar.status ar.spec hmod
  have hht : handleRollingTerminated ar.status ar.spec.targetAppRevisionName
      ar.spec.sourceAppRevisionName = false := by
    simp [handleRollingTerminated, hstate]
  constructor
  · intro hplan
    simp [doReconcile, hstate, hht, hpin, hne, hgetS, hgetT, nonDeletingTarget,
      afterPlanExecutor, hplan, finalizeRollingSucceeded, hman, hdisp]
  · intro hplan
    have hq : doReconcile env ar =
        { status := { rollingState := some RollingState.rolloutFailed,
                      lastUpgradedTargetAppRevision := ar.spec.targetAppRevisionName,
                      lastSourceAppRevision := ar.spec.sourceAppRevisionName },
          actions := [Action.resolve ar.spec.sourceAppRevisionName,
                      Action.resolve ar.spec.targetAppRevisionName],
          error := none } := by
      simp [doReconcile, hstate, hht, hpin, hne, hgetS, hgetT, nonDeletingTarget,
        afterPlanExecutor, hplan]
    refine ⟨hq, ?_⟩
    rw [hq]
    intro a ha revName gc
    simp at ha
    rcases ha with h | h <;> subst h <;> simp

/-- C2 witness: the theorem's success half at a concrete rollout rev-1 to
rev-2 whose plan executor succeeds. -/
theorem c2_plan_result_handling_witness :
    doReconcile c2Env c2Rollout =
      { status := { rollingState := some RollingState.rolloutSucceed,
                    lastUpgradedTargetAppRevision := "rev-2",
                    lastSourceAppRevision := "rev-1" },
        actions := [Action.resolve "rev-1", Action.resolve "rev-2",
                    Action.finalDispatch "rev-2" (some "rev-1-default")],
        error := none } :=
  (c2_plan_result_handling c2Env c2Rollout { name := "rev-1", nameSpace := "default" }
      { name := "rev-2", nameSpace := "default" } [{ name := "comp", nameSpace := "default" }]
      (by decide) (by decide) (by decide) (by decide) (by decide) (by decide) (by decide)
      (by decide)).1 (by decide)

/-- C1 witness: the amended theorem applied at a concrete context. -/
theorem c1_canonical_labels_when_disjoint_witness :
    lookupM (setWorkloadLables c1Workload
        (generateCommonLables c1DisjointCtx "mycomp" "mycomp-v1")).labels
      oam.LabelAppName = some c1DisjointCtx.appName := by
  exact (c1_canonical_labels_when_disjoint c1DisjointCtx "mycomp" "mycomp-v1" c1Workload
    c1Workload (by decide) (by decide) (by decide) (by decide) (by decide)).1.1

end RudrX
